import Mathlib

/-!
# Verification of the quick-minutes recording/session core

Shallow embedding of the client-side recording state machine
(`src/hooks/useAudioRecorder.ts`, current wall-clock revision), the
countdown UI logic (`RecordButton`), the page-level orchestration
(`handleTimerExtend`, `generateMinutes`, `handleSave`) and the Gemini
file-readiness poll (`src/lib/gemini.ts`, `waitForFileActive`).

Times are wall-clock milliseconds (`Nat`); reported durations are whole
seconds; audio chunks are modelled by their byte sizes (`Nat`).
-/

namespace QuickMinutes

/-- State of the browser `MediaRecorder` object held in `mediaRecorderRef`. -/
inductive MRState
  | recording
  | paused
  | inactive
deriving DecidableEq, Repr

/-- Error surfaced by `stopRecording` when nothing was captured
(`reject(new Error("録音中ではありません"))`). -/
inductive RecErr
  | notRecording
deriving DecidableEq, Repr

/-- The mutable state of the `useAudioRecorder` hook: the five React state
variables plus the refs (`chunksRef`, `timerRef`, `startTimeRef`,
`pausedDurationRef`, `mediaRecorderRef`, `streamRef`).  `timerActive`
models `timerRef.current !== null`; `streamActive` records whether the
stream's tracks have been stopped. -/
structure RecorderState where
  isRecording : Bool
  isPaused : Bool
  isInterrupted : Bool
  duration : Nat
  audioBlob : Option (List Nat)
  chunks : List Nat
  startTime : Option Nat
  pausedDuration : Nat
  timerActive : Bool
  mediaRecorder : Option MRState
  stream : Option Nat
  streamActive : Bool
deriving DecidableEq, Repr

/-- Initial hook state: all flags false, empty chunk buffer, no recorder. -/
def initState : RecorderState :=
  { isRecording := false
    isPaused := false
    isInterrupted := false
    duration := 0
    audioBlob := none
    chunks := []
    startTime := none
    pausedDuration := 0
    timerActive := false
    mediaRecorder := none
    stream := none
    streamActive := false }

/-- `startRecording(isResume)`, success path: acquires a fresh stream `sid`
at time `t`, creates a new `MediaRecorder`, clears chunks/duration/paused
accumulator unless resuming, sets the flags, records `startTimeRef = now`
and installs the wall-clock interval timer. -/
def startRecording (isResume : Bool) (t sid : Nat) (s : RecorderState) : RecorderState :=
  { s with
    stream := some sid
    streamActive := true
    mediaRecorder := some MRState.recording
    chunks := if isResume then s.chunks else []
    duration := if isResume then s.duration else 0
    pausedDuration := if isResume then s.pausedDuration else 0
    isRecording := true
    isPaused := false
    isInterrupted := false
    startTime := some t
    timerActive := true }

/-- `resumeInterrupted()` simply calls `startRecording(true)`. -/
def resumeInterrupted (t sid : Nat) (s : RecorderState) : RecorderState :=
  startRecording true t sid s

/-- `pauseRecording()`: guarded by `mediaRecorderRef.current && isRecording
&& !isPaused`; commits the elapsed whole seconds of the current segment
into `pausedDurationRef`, nulls `startTimeRef` and clears the interval. -/
def pauseRecording (t : Nat) (s : RecorderState) : RecorderState :=
  if s.mediaRecorder.isSome && s.isRecording && !s.isPaused then
    { s with
      mediaRecorder := some MRState.paused
      isPaused := true
      pausedDuration :=
        match s.startTime with
        | some st => s.pausedDuration + (t - st) / 1000
        | none => s.pausedDuration
      startTime := none
      timerActive := false }
  else s

/-- `resumeRecording()`: guarded by `mediaRecorderRef.current && isRecording
&& isPaused`; restarts the wall-clock base (`startTimeRef = Date.now()`)
and reinstalls the interval. -/
def resumeRecording (t : Nat) (s : RecorderState) : RecorderState :=
  if s.mediaRecorder.isSome && s.isRecording && s.isPaused then
    { s with
      mediaRecorder := some MRState.recording
      isPaused := false
      startTime := some t
      timerActive := true }
  else s

/-- One firing of the interval installed by `startRecording`/`resumeRecording`:
`duration = pausedDurationRef + floor((Date.now() - startTimeRef) / 1000)`,
guarded by `startTimeRef !== null`.  A tick can only fire while the
interval handle exists. -/
def timerTick (t : Nat) (s : RecorderState) : RecorderState :=
  if s.timerActive then
    match s.startTime with
    | some st => { s with duration := s.pausedDuration + (t - st) / 1000 }
    | none => s
  else s

/-- `track.onmute` handler: `setIsInterrupted(true)`. -/
def trackMuted (s : RecorderState) : RecorderState :=
  { s with isInterrupted := true }

/-- `track.onunmute` handler: `setIsInterrupted(false)`. -/
def trackUnmuted (s : RecorderState) : RecorderState :=
  { s with isInterrupted := false }

/-- `track.onended` handler: `setIsInterrupted(true)`. -/
def trackEnded (s : RecorderState) : RecorderState :=
  { s with isInterrupted := true }

/-- `ondataavailable` handler: appends the chunk when `e.data.size > 0`. -/
def dataAvailable (c : Nat) (s : RecorderState) : RecorderState :=
  if 0 < c then { s with chunks := s.chunks ++ [c] } else s

/-- `resetRecording()`: discards the blob, the chunks and the timing refs. -/
def resetRecording (s : RecorderState) : RecorderState :=
  { s with
    audioBlob := none
    duration := 0
    chunks := []
    isInterrupted := false
    startTime := none
    pausedDuration := 0 }

/-- `resetDuration()` (used on countdown timer extend): resets only the
reported duration, the paused-time accumulator and the wall-clock base. -/
def resetDuration (t : Nat) (s : RecorderState) : RecorderState :=
  { s with
    duration := 0
    pausedDuration := 0
    startTime := some t }

/-- `stopRecording()`.  Early branch (`!mediaRecorderRef.current ||
!isRecording`): with non-empty chunks resolve a blob of the buffered
chunks, else reject; both return before any flag is touched.  Normal
branch: `recorder.stop()` fires `onstop`, which builds the blob and stops
every stream track (unless the recorder was already `inactive`, in which
case the blob is built without releasing the stream); then the three flags
are cleared and the interval cancelled. -/
def stopRecording (s : RecorderState) : Except RecErr (List Nat) × RecorderState :=
  if !s.mediaRecorder.isSome || !s.isRecording then
    if s.chunks ≠ [] then
      (Except.ok s.chunks, { s with audioBlob := some s.chunks })
    else
      (Except.error RecErr.notRecording, s)
  else
    let s1 :=
      if s.mediaRecorder ≠ some MRState.inactive then
        { s with
          audioBlob := some s.chunks
          mediaRecorder := some MRState.inactive
          streamActive := false }
      else
        { s with audioBlob := some s.chunks }
    (Except.ok s.chunks,
      { s1 with
        isRecording := false
        isPaused := false
        isInterrupted := false
        timerActive := false })

/-- Events the hook reacts to during one session. -/
inductive REvent
  | start (t sid : Nat)
  | resumeInt (t sid : Nat)
  | pause (t : Nat)
  | resume (t : Nat)
  | tick (t : Nat)
  | muted
  | unmuted
  | ended
  | data (c : Nat)
  | reset (t : Nat)
  | stop
deriving DecidableEq, Repr

/-- One event of the single-threaded event loop applied to the hook state.
`stop` keeps only the state component of `stopRecording`. -/
def step (s : RecorderState) : REvent → RecorderState
  | REvent.start t sid => startRecording false t sid s
  | REvent.resumeInt t sid => resumeInterrupted t sid s
  | REvent.pause t => pauseRecording t s
  | REvent.resume t => resumeRecording t s
  | REvent.tick t => timerTick t s
  | REvent.muted => trackMuted s
  | REvent.unmuted => trackUnmuted s
  | REvent.ended => trackEnded s
  | REvent.data c => dataAvailable c s
  | REvent.reset t => resetDuration t s
  | REvent.stop => (stopRecording s).2

/-- Run a list of events through the hook. -/
def run (s : RecorderState) (es : List REvent) : RecorderState :=
  es.foldl step s

/-! ## Session traces made of Recording-state segments

A segment is a contiguous span of `Recording` state: it starts at
`segStart` (the `start`/`resume` wall-clock time), sees an arbitrary list
of interior interval ticks, and ends at `segEnd`, where the interval fires
one last time before the segment is closed by a pause or by `stop`. -/

structure Seg where
  segStart : Nat
  midTicks : List Nat
  segEnd : Nat
deriving DecidableEq, Repr

/-- Whole-second wall-clock length of a segment, as the hook floors it. -/
def segSeconds (g : Seg) : Nat := (g.segEnd - g.segStart) / 1000

/-- The interval firings seen during one segment: the arbitrary interior
ticks followed by the tick at the segment's end. -/
def segEvents (g : Seg) : List REvent :=
  g.midTicks.map REvent.tick ++ [REvent.tick g.segEnd]

/-- The events after the first segment: each later segment is entered by
`pause` at the previous segment's end and `resume` at its own start; the
session finishes with `stop`. -/
def laterSegs : Nat → List Seg → List REvent
  | _, [] => [REvent.stop]
  | prevEnd, g :: rest =>
    REvent.pause prevEnd :: REvent.resume g.segStart ::
      (segEvents g ++ laterSegs g.segEnd rest)

/-- A whole session: `start` at the first segment's start, then the
segments separated by pause/resume, then `stop`. -/
def sessionTrace (sid : Nat) : List Seg → List REvent
  | [] => [REvent.stop]
  | g :: rest => REvent.start g.segStart sid :: (segEvents g ++ laterSegs g.segEnd rest)

lemma run_append (s : RecorderState) (es fs : List REvent) :
    run s (es ++ fs) = run (run s es) fs := by
  simp [run, List.foldl_append]

lemma timerTick_of_active (s : RecorderState) (t a : Nat)
    (ht : s.timerActive = true) (ha : s.startTime = some a) :
    timerTick t s = { s with duration := s.pausedDuration + (t - a) / 1000 } := by
  simp [timerTick, ht, ha]

lemma run_ticks (ts : List Nat) (e : Nat) (s : RecorderState) (a : Nat)
    (ht : s.timerActive = true) (ha : s.startTime = some a) :
    run s (ts.map REvent.tick ++ [REvent.tick e])
      = { s with duration := s.pausedDuration + (e - a) / 1000 } := by
  induction ts generalizing s with
  | nil =>
    simp only [List.map_nil, List.nil_append, run, List.foldl_cons, List.foldl_nil, step]
    rw [timerTick_of_active _ _ _ ht ha]
  | cons t ts ih =>
    simp only [List.map_cons, List.cons_append, run, List.foldl_cons, step]
    rw [timerTick_of_active _ _ _ ht ha]
    exact ih _ ht ha

/-- Running the ticks of one segment only rewrites `duration` from the
wall clock; every other field survives, and interior ticks are absorbed
by the final one. -/
lemma run_segEvents (g : Seg) (s : RecorderState) (a : Nat)
    (ht : s.timerActive = true) (ha : s.startTime = some a) :
    run s (segEvents g)
      = { s with duration := s.pausedDuration + (g.segEnd - a) / 1000 } :=
  run_ticks g.midTicks g.segEnd s a ht ha

/-- After the current segment has been ticked to its end `pe`, running the
remaining pause/resume/tick events and the final `stop` leaves `duration`
at the committed seconds plus the later segments' whole-second lengths. -/
lemma run_laterSegs (segs : List Seg) (pe a : Nat) (s : RecorderState)
    (hrec : s.isRecording = true) (hp : s.isPaused = false)
    (hmr : s.mediaRecorder = some MRState.recording)
    (ha : s.startTime = some a) (ht : s.timerActive = true)
    (hd : s.duration = s.pausedDuration + (pe - a) / 1000) :
    (run s (laterSegs pe segs)).duration
      = s.pausedDuration + (pe - a) / 1000 + (segs.map segSeconds).sum := by
  induction segs generalizing s pe a with
  | nil =>
    simp only [laterSegs, run, List.foldl_cons, List.foldl_nil, step, List.map_nil,
      List.sum_nil, Nat.add_zero]
    rw [stopRecording]
    simp [hmr, hrec, ← hd]
  | cons g rest ih =>
    simp only [laterSegs, run, List.foldl_cons, step]
    rw [pauseRecording]
    simp only [hmr, hrec, hp, Option.isSome_some, Bool.not_false, Bool.and_self, if_true,
      Bool.and_true, ha]
    rw [resumeRecording]
    simp only [Option.isSome_some, Bool.and_self, Bool.and_true, if_true]
    rw [show (List.foldl step _ (segEvents g ++ laterSegs g.segEnd rest))
          = run _ (segEvents g ++ laterSegs g.segEnd rest) from rfl,
      run_append, run_segEvents _ _ g.segStart rfl rfl]
    rw [ih g.segEnd g.segStart _ rfl rfl rfl rfl rfl rfl]
    simp [segSeconds, Nat.add_assoc]

/-- Formal statement used by claim C1: running a full session whose
segments are `segs` reports, at `stop`, the sum of the segments'
whole-second wall-clock lengths. -/
def sessionDuration (sid : Nat) (segs : List Seg) : Nat :=
  (run initState (sessionTrace sid segs)).duration

/-- C1: for every sequence of `pause()`/`resume()` calls during one
recording session, the duration reported at `stop()` equals the sum of
the wall-clock durations (in whole seconds) of all Recording-state
segments, excluding paused intervals — whatever interior ticks occur; in
particular recording 45 s, pausing 30 s, resuming and recording 15 s
yields `elapsedSeconds = 60`. -/
theorem elapsedSeconds_at_stop_eq_segment_sum :
    (∀ (sid : Nat) (segs : List Seg),
        sessionDuration sid segs = (segs.map segSeconds).sum)
    ∧ sessionDuration 0 [⟨0, [], 45000⟩, ⟨75000, [], 90000⟩] = 60 := by
  constructor
  · intro sid segs
    cases segs with
    | nil => rfl
    | cons g rest =>
      show (run initState
          (REvent.start g.segStart sid :: (segEvents g ++ laterSegs g.segEnd rest))).duration
        = _
      rw [show run initState (REvent.start g.segStart sid
            :: (segEvents g ++ laterSegs g.segEnd rest))
          = run (startRecording false g.segStart sid initState)
              (segEvents g ++ laterSegs g.segEnd rest) from rfl,
        run_append, run_segEvents _ _ g.segStart rfl rfl,
        run_laterSegs rest g.segEnd g.segStart _ rfl rfl rfl rfl rfl rfl]
      simp [startRecording, initState, segSeconds]
  · decide

/-! ## Behaviour of `elapsedSeconds` under pause, interruption and ticks -/

/-- While the session is `Paused` the interval handle is gone, so no tick
can fire.  This is the mechanism by which the displayed duration freezes
on pause. -/
def pausedFrozen (s : RecorderState) : Prop :=
  s.isPaused = true → s.timerActive = false

instance (s : RecorderState) : Decidable (pausedFrozen s) := by
  unfold pausedFrozen; infer_instance

lemma pausedFrozen_step (s : RecorderState) (e : REvent) (h : pausedFrozen s) :
    pausedFrozen (step s e) := by
  unfold pausedFrozen at h ⊢
  cases e with
  | start t sid => intro hp; simp [step, startRecording] at hp
  | resumeInt t sid => intro hp; simp [step, resumeInterrupted, startRecording] at hp
  | pause t =>
    simp only [step, pauseRecording]
    split
    · intro _; rfl
    · exact h
  | resume t =>
    simp only [step, resumeRecording]
    split
    · intro hp; simp at hp
    · exact h
  | tick t =>
    simp only [step, timerTick]
    split
    · cases hst : s.startTime with
      | none => simp only [hst]; exact h
      | some a => simp only [hst]; exact h
    · exact h
  | muted => exact h
  | unmuted => exact h
  | ended => exact h
  | data c =>
    simp only [step, dataAvailable]
    split
    · exact h
    · exact h
  | reset t => exact h
  | stop =>
    simp only [step, stopRecording]
    split
    · split
      · exact h
      · exact h
    · intro hp; simp at hp

/-- C2 (amended): `elapsedSeconds` is computed from wall-clock deltas
(`pausedDuration + ⌊(now − segmentStart)/1000⌋`, never tick-counted), it
never advances while `Paused` (pausing cancels the interval and a
cancelled interval leaves the state untouched, an invariant every event
preserves), and it is non-decreasing across ticks of a single segment.
The original claim's further guarantees — that it never advances while
`Interrupted` and never decreases across the whole session — fail, see
the counterexample. -/
theorem elapsedSeconds_wallClock_pausedFrozen :
    (∀ (s : RecorderState) (t a : Nat), s.timerActive = true → s.startTime = some a →
        (timerTick t s).duration = s.pausedDuration + (t - a) / 1000)
    ∧ (∀ (s : RecorderState) (e : REvent), pausedFrozen s → pausedFrozen (step s e))
    ∧ (∀ (s : RecorderState) (t : Nat), pausedFrozen s → s.isPaused = true →
        timerTick t s = s)
    ∧ (∀ (s : RecorderState) (t t2 a : Nat), s.timerActive = true → s.startTime = some a →
        t ≤ t2 → (timerTick t s).duration ≤ (timerTick t2 s).duration) := by
  refine ⟨?_, pausedFrozen_step, ?_, ?_⟩
  · intro s t a ht ha
    rw [timerTick_of_active _ _ _ ht ha]
  · intro s t hf hp
    unfold timerTick
    rw [hf hp]
    simp
  · intro s t t2 a ht ha hle
    rw [timerTick_of_active _ _ _ ht ha, timerTick_of_active _ _ _ ht ha]
    exact Nat.add_le_add_left (Nat.div_le_div_right (Nat.sub_le_sub_right hle a)) _

/-- Witness for the amended C2 theorem at concrete states and times. -/
theorem elapsedSeconds_wallClock_pausedFrozen_witness :
    (timerTick 5500 (startRecording false 0 7 initState)).duration = 0 + (5500 - 0) / 1000
    ∧ pausedFrozen (step (pauseRecording 1000 (startRecording false 0 7 initState))
        REvent.muted)
    ∧ timerTick 2000 (pauseRecording 1000 (startRecording false 0 7 initState))
        = pauseRecording 1000 (startRecording false 0 7 initState)
    ∧ (timerTick 1000 (startRecording false 0 7 initState)).duration
        ≤ (timerTick 2500 (startRecording false 0 7 initState)).duration :=
  ⟨elapsedSeconds_wallClock_pausedFrozen.1 _ 5500 0 rfl rfl,
   elapsedSeconds_wallClock_pausedFrozen.2.1 _ REvent.muted (by decide),
   elapsedSeconds_wallClock_pausedFrozen.2.2.1 _ 2000 (by decide) (by decide),
   elapsedSeconds_wallClock_pausedFrozen.2.2.2 _ 1000 2500 0 rfl rfl (by decide)⟩

/-- Counterexample to C2 as stated: after `start` at t = 0 and a track-mute
interruption, the tick at t = 5000 advances `elapsedSeconds` from 0 to 5
while the session is `Interrupted`; and `resumeInterrupted` at t = 30000
restarts the wall-clock base without committing the interrupted segment,
so the tick at t = 31000 drops the value from 5 back to 1 — a decrease. -/
theorem elapsedSeconds_advances_while_interrupted :
    (run initState [REvent.start 0 7, REvent.muted]).isInterrupted = true
    ∧ (run initState [REvent.start 0 7, REvent.muted]).duration = 0
    ∧ (run initState [REvent.start 0 7, REvent.muted, REvent.tick 5000]).isInterrupted = true
    ∧ (run initState [REvent.start 0 7, REvent.muted, REvent.tick 5000]).duration = 5
    ∧ (run initState [REvent.start 0 7, REvent.muted, REvent.tick 5000,
        REvent.resumeInt 30000 8, REvent.tick 31000]).duration = 1 := by
  decide

/-- C10: `resetDuration` resets only the timing state — reported duration,
paused-time accumulator and wall-clock base — and leaves the chunk buffer,
the finalized blob, the `MediaRecorder`, the stream and every status flag
(including the interval handle) unchanged. -/
theorem resetDuration_resets_only_timing :
    ∀ (s : RecorderState) (t : Nat),
      (resetDuration t s).duration = 0
      ∧ (resetDuration t s).pausedDuration = 0
      ∧ (resetDuration t s).startTime = some t
      ∧ (resetDuration t s).chunks = s.chunks
      ∧ (resetDuration t s).audioBlob = s.audioBlob
      ∧ (resetDuration t s).mediaRecorder = s.mediaRecorder
      ∧ (resetDuration t s).stream = s.stream
      ∧ (resetDuration t s).streamActive = s.streamActive
      ∧ (resetDuration t s).isRecording = s.isRecording
      ∧ (resetDuration t s).isPaused = s.isPaused
      ∧ (resetDuration t s).isInterrupted = s.isInterrupted
      ∧ (resetDuration t s).timerActive = s.timerActive :=
  fun _ _ => ⟨rfl, rfl, rfl, rfl, rfl, rfl, rfl, rfl, rfl, rfl, rfl, rfl⟩

/-! ## Page-level countdown handling (`app/page.tsx`, v4.13.0 revision) -/

/-- The slice of the `Home` component state the countdown logic touches:
the recorder hook, `selectedDuration` (minutes) and the end-of-timer
modal flag. -/
structure HomeState where
  recorder : RecorderState
  selectedDuration : Nat
  showTimerEndModal : Bool
deriving DecidableEq, Repr

/-- `handleTimeUp`: the owner's reaction to the time-up signal — it only
shows the end-of-timer modal. -/
def handleTimeUp (h : HomeState) : HomeState :=
  { h with showTimerEndModal := true }

/-- `handleTimerExtend` (extension without a break): closes the modal,
stores the newly chosen duration and calls `recorder.resetDuration()`. -/
def handleTimerExtend (d tNow : Nat) (h : HomeState) : HomeState :=
  { h with
    showTimerEndModal := false
    selectedDuration := d
    recorder := resetDuration tNow h.recorder }

/-- `handleTimerExtendWithBreak` (extension after the 10-minute break):
same body as `handleTimerExtend`. -/
def handleTimerExtendWithBreak (d tNow : Nat) (h : HomeState) : HomeState :=
  { h with
    showTimerEndModal := false
    selectedDuration := d
    recorder := resetDuration tNow h.recorder }

/-- The `countdownFrom` prop passed to `RecordButton`:
`selectedDuration > 0 ? selectedDuration * 60 : undefined`. -/
def countdownFrom (h : HomeState) : Option Nat :=
  if 0 < h.selectedDuration then some (h.selectedDuration * 60) else none

/-- A concrete home state after recording for 30 wall-clock minutes with a
30-minute countdown: `elapsedSeconds = 1800` and the time-up modal shown. -/
def homeAtTimeUp : HomeState :=
  { recorder := run initState [REvent.start 0 7, REvent.tick 1800000]
    selectedDuration := 30
    showTimerEndModal := true }

/-- Counterexample to C5 as stated: extending by 15 minutes *without* a
break resets the already-elapsed time — the reported duration drops from
1800 to 0 — and the no-break handler performs exactly the same full timer
reset as the after-break handler, so the reset is not reserved for the
break path. -/
theorem handleTimerExtend_resets_elapsed :
    homeAtTimeUp.recorder.duration = 1800
    ∧ (handleTimerExtend 15 1800000 homeAtTimeUp).recorder.duration = 0
    ∧ (handleTimerExtend 15 1800000 homeAtTimeUp).recorder.pausedDuration = 0
    ∧ handleTimerExtend 15 1800000 homeAtTimeUp
        = handleTimerExtendWithBreak 15 1800000 homeAtTimeUp := by
  decide

/-- C5 (amended): extending after a time-up event — with or without a
break — replaces the countdown budget and always performs the full timer
reset (`duration = 0`, `pausedDuration = 0`, `startTime = now`); the two
handlers are identical, and the effective remaining time right after the
extension is the entire new budget of `d * 60` seconds. -/
theorem handleTimerExtend_full_reset_both_paths :
    ∀ (d tNow : Nat) (h : HomeState),
      handleTimerExtend d tNow h = handleTimerExtendWithBreak d tNow h
      ∧ (handleTimerExtend d tNow h).recorder.duration = 0
      ∧ (handleTimerExtend d tNow h).recorder.pausedDuration = 0
      ∧ (handleTimerExtend d tNow h).recorder.startTime = some tNow
      ∧ (handleTimerExtend d tNow h).recorder.chunks = h.recorder.chunks
      ∧ (handleTimerExtend d tNow h).selectedDuration = d
      ∧ (handleTimerExtend d tNow h).showTimerEndModal = false
      ∧ (0 < d →
          countdownFrom (handleTimerExtend d tNow h)
            = some (d * 60)
          ∧ (d * 60 : Int) - ((handleTimerExtend d tNow h).recorder.duration : Int)
            = (d * 60 : Int)) := by
  intro d tNow h
  refine ⟨rfl, rfl, rfl, rfl, rfl, rfl, rfl, fun hd => ⟨?_, ?_⟩⟩
  · simp [countdownFrom, handleTimerExtend, hd]
  · simp [handleTimerExtend, resetDuration]

/-- Witness for the amended C5 theorem at the concrete time-up state. -/
theorem handleTimerExtend_full_reset_both_paths_witness :
    handleTimerExtend 15 1800000 homeAtTimeUp
        = handleTimerExtendWithBreak 15 1800000 homeAtTimeUp
    ∧ (handleTimerExtend 15 1800000 homeAtTimeUp).recorder.duration = 0
    ∧ (0 < 15 ∧
        countdownFrom (handleTimerExtend 15 1800000 homeAtTimeUp) = some 900) := by
  have h := handleTimerExtend_full_reset_both_paths 15 1800000 homeAtTimeUp
  exact ⟨h.1, h.2.1, by decide, (h.2.2.2.2.2.2.2 (by decide)).1⟩

/-! ## `RecordButton`: countdown derivation, beep/alarm latches, time-up
notification (current revision of the component) -/

/-- The props of `RecordButton` the countdown logic reads. -/
structure RBProps where
  isRecording : Bool
  isPaused : Bool
  duration : Nat
  countdownFrom : Option Nat
deriving DecidableEq, Repr

/-- `remainingTime = countdownFrom ? countdownFrom - duration : null`
(`0` is falsy in JS, so a zero target yields `null`). -/
def remainingTime (p : RBProps) : Option Int :=
  match p.countdownFrom with
  | some c => if c = 0 then none else some ((c : Int) - (p.duration : Int))
  | none => none

/-- `isCountdown = remainingTime !== null`. -/
def isCountdown (p : RBProps) : Bool :=
  (remainingTime p).isSome

/-- `isTimeUp = isCountdown && remainingTime <= 0 && !isPaused`. -/
def isTimeUp (p : RBProps) : Bool :=
  match remainingTime p with
  | some r => decide (r ≤ 0) && !p.isPaused
  | none => false

/-- `shouldBeep = isCountdown && remainingTime !== null && remainingTime > 0
&& remainingTime <= 20 && !isPaused`. -/
def shouldBeep (p : RBProps) : Bool :=
  match remainingTime p with
  | some r => decide (0 < r) && decide (r ≤ 20) && !p.isPaused
  | none => false

/-- The component's refs: `lastBeepTimeRef` and `alarmPlayedRef`. -/
structure RBRefs where
  lastBeepTime : Option Int
  alarmPlayed : Bool
deriving DecidableEq, Repr

/-- Observable output of one render of `RecordButton`: the refs after the
effects ran, whether the per-second beep and the one-shot alarm sounded,
and whether the render scheduled a call of `onTimeUp`. -/
structure RBRender where
  refs : RBRefs
  beeped : Bool
  alarmFired : Bool
  timeUpNotified : Bool
deriving DecidableEq, Repr

/-- One render of `RecordButton` plus its effects, in source order: the
per-second beep effect (de-duplicated through `lastBeepTimeRef`), the
alarm effect (`playAlarm` latched by `alarmPlayedRef`, latch cleared when
`isTimeUp` goes false), the latch reset when not recording, and the
render-body time-up notification `if (isTimeUp && onTimeUp)
setTimeout(() => onTimeUp(), 0)`, which runs on *every* render. -/
def renderRecordButton (p : RBProps) (r : RBRefs) : RBRender :=
  let beepState : Option Int × Bool :=
    if shouldBeep p then
      match remainingTime p with
      | some rv =>
        if r.lastBeepTime ≠ some rv then (some rv, true) else (r.lastBeepTime, false)
      | none => (r.lastBeepTime, false)
    else (r.lastBeepTime, false)
  let alarmState : Bool × Bool :=
    if isTimeUp p && !r.alarmPlayed then (true, true)
    else if !(isTimeUp p) && r.alarmPlayed then (false, false)
    else (r.alarmPlayed, false)
  { refs :=
      { lastBeepTime := if !p.isRecording then none else beepState.1
        alarmPlayed := if !p.isRecording then false else alarmState.1 }
    beeped := beepState.2
    alarmFired := alarmState.2
    timeUpNotified := isTimeUp p }

/-- A sequence of renders threading the refs; returns the final refs, the
number of alarm firings and the number of `onTimeUp` notifications. -/
def runRenders (r : RBRefs) : List RBProps → RBRefs × Nat × Nat
  | [] => (r, 0, 0)
  | p :: ps =>
    let out := renderRecordButton p r
    let rest := runRenders out.refs ps
    (rest.1,
     (if out.alarmFired then 1 else 0) + rest.2.1,
     (if out.timeUpNotified then 1 else 0) + rest.2.2)

lemma runRenders_notify_all (r : RBRefs) (ps : List RBProps)
    (h : ∀ p ∈ ps, isTimeUp p = true) :
    (runRenders r ps).2.2 = ps.length := by
  induction ps generalizing r with
  | nil => rfl
  | cons p ps ih =>
    have hp := h p (List.mem_cons_self p ps)
    simp only [runRenders, renderRecordButton, hp, if_true, List.length_cons]
    rw [ih _ fun q hq => h q (List.mem_cons_of_mem p hq)]
    omega

lemma runRenders_alarm_latched (r : RBRefs) (ps : List RBProps)
    (h : ∀ p ∈ ps, isTimeUp p = true ∧ p.isRecording = true)
    (hr : r.alarmPlayed = true) :
    (runRenders r ps).2.1 = 0 := by
  induction ps generalizing r with
  | nil => rfl
  | cons p ps ih =>
    have hp := h p (List.mem_cons_self p ps)
    simp only [runRenders, renderRecordButton, hp.1, hp.2, hr, Bool.not_true,
      Bool.and_false, Bool.true_and, Bool.false_and, if_false, Bool.not_false]
    rw [ih _ (fun q hq => h q (List.mem_cons_of_mem p hq)) (by simp [hp.2, hr])]
    decide

lemma runRenders_alarm_once (r : RBRefs) (ps : List RBProps)
    (h : ∀ p ∈ ps, isTimeUp p = true ∧ p.isRecording = true)
    (hr : r.alarmPlayed = false) :
    (runRenders r ps).2.1 = min 1 ps.length := by
  cases ps with
  | nil => rfl
  | cons p ps =>
    have hp := h p (List.mem_cons_self p ps)
    simp only [runRenders, renderRecordButton, hp.1, hp.2, hr, Bool.not_false,
      Bool.and_true, Bool.true_and, if_true]
    rw [runRenders_alarm_latched _ _ (fun q hq => h q (List.mem_cons_of_mem p hq))
      (by simp [hp.2])]
    simp [Nat.succ_le_succ]

/-- C3 (amended): while the countdown is up (`remaining ≤ 0`, not paused,
still recording) the audible one-shot alarm fires at most once — exactly
once per countdown cycle when the latch starts clear — but the `onTimeUp`
notification is scheduled on *every* render, not once; and the session
does not auto-stop: the owner's `handleTimeUp` only opens the
end-of-timer modal, leaving the recorder untouched. -/
theorem timeUp_alarm_once_notify_every_render :
    (∀ (r : RBRefs) (ps : List RBProps),
        (∀ p ∈ ps, isTimeUp p = true ∧ p.isRecording = true) →
        (runRenders r ps).2.2 = ps.length
        ∧ (runRenders r ps).2.1 ≤ 1
        ∧ (r.alarmPlayed = false → (runRenders r ps).2.1 = min 1 ps.length))
    ∧ (∀ hs : HomeState, (handleTimeUp hs).recorder = hs.recorder
        ∧ (handleTimeUp hs).showTimerEndModal = true) := by
  constructor
  · intro r ps h
    refine ⟨runRenders_notify_all r ps (fun p hp => (h p hp).1), ?_,
      fun hr => runRenders_alarm_once r ps h hr⟩
    cases hr : r.alarmPlayed with
    | true => rw [runRenders_alarm_latched r ps h hr]; omega
    | false => rw [runRenders_alarm_once r ps h hr]; omega
  · intro hs; exact ⟨rfl, rfl⟩

/-- Witness for the amended C3 theorem: two consecutive time-up renders
sound the alarm once while notifying twice. -/
theorem timeUp_alarm_once_notify_every_render_witness :
    (∀ p ∈ [RBProps.mk true false 1802 (some 1800), RBProps.mk true false 1803 (some 1800)],
        isTimeUp p = true ∧ p.isRecording = true)
    ∧ (runRenders ⟨none, false⟩
        [RBProps.mk true false 1802 (some 1800), RBProps.mk true false 1803 (some 1800)]).2.2
      = 2
    ∧ (runRenders ⟨none, false⟩
        [RBProps.mk true false 1802 (some 1800), RBProps.mk true false 1803 (some 1800)]).2.1
      ≤ 1 := by
  have h := timeUp_alarm_once_notify_every_render.1 ⟨none, false⟩
    [RBProps.mk true false 1802 (some 1800), RBProps.mk true false 1803 (some 1800)]
    (by decide)
  exact ⟨by decide, h.1, h.2.1⟩

/-- Counterexample to C3 as stated: with a 1800-second target, the renders
at `duration = 1800` and `duration = 1801` both have `isTimeUp` true and
*both* schedule the `onTimeUp` notification — two firings within a single
countdown cycle (the once-per-cycle latch guards only the audible alarm,
which indeed fires once). -/
theorem onTimeUp_fires_every_render :
    isTimeUp (RBProps.mk true false 1800 (some 1800)) = true
    ∧ isTimeUp (RBProps.mk true false 1801 (some 1800)) = true
    ∧ (renderRecordButton (RBProps.mk true false 1800 (some 1800))
        ⟨none, false⟩).timeUpNotified = true
    ∧ (runRenders ⟨none, false⟩
        [RBProps.mk true false 1800 (some 1800), RBProps.mk true false 1801 (some 1800)]).2.2
      = 2
    ∧ (runRenders ⟨none, false⟩
        [RBProps.mk true false 1800 (some 1800), RBProps.mk true false 1801 (some 1800)]).2.1
      = 1 := by
  decide

/-! ## Interruption recovery and stop semantics -/

lemma run_dataEvents (cs : List Nat) (s : RecorderState) (h : ∀ c ∈ cs, 0 < c) :
    run s (cs.map REvent.data) = { s with chunks := s.chunks ++ cs } := by
  induction cs generalizing s with
  | nil => simp [run]
  | cons c cs ih =>
    have hc := h c (List.mem_cons_self c cs)
    simp only [List.map_cons, run, List.foldl_cons, step, dataAvailable, hc, if_true]
    rw [show List.foldl step _ (cs.map REvent.data) = run _ (cs.map REvent.data) from rfl,
      ih _ fun q hq => h q (List.mem_cons_of_mem c hq)]
    simp

/-- C6: from an `Interrupted` state, `resumeInterrupted` re-acquires a
fresh stream, keeps every chunk buffered before the interruption, and
capture continues into the same chunk sequence: after the post-resume
chunks arrive, `stop` finalizes `pre ++ post`, whose length is at least
the chunk count at the moment of interruption. -/
theorem resumeInterrupted_preserves_chunks :
    ∀ (s : RecorderState) (t sid : Nat) (cs : List Nat),
      s.isInterrupted = true → (∀ c ∈ cs, 0 < c) →
      (run s (REvent.resumeInt t sid :: cs.map REvent.data)).chunks = s.chunks ++ cs
      ∧ (run s (REvent.resumeInt t sid :: cs.map REvent.data)).stream = some sid
      ∧ (stopRecording (run s (REvent.resumeInt t sid :: cs.map REvent.data))).1
          = Except.ok (s.chunks ++ cs)
      ∧ (stopRecording (run s (REvent.resumeInt t sid :: cs.map REvent.data))).2.audioBlob
          = some (s.chunks ++ cs)
      ∧ s.chunks.length ≤ (s.chunks ++ cs).length := by
  intro s t sid cs _ hcs
  have hrun : run s (REvent.resumeInt t sid :: cs.map REvent.data)
      = { resumeInterrupted t sid s with
            chunks := (resumeInterrupted t sid s).chunks ++ cs } :=
    run_dataEvents cs (resumeInterrupted t sid s) hcs
  rw [hrun]
  exact ⟨rfl, rfl, rfl, rfl, by simp⟩

/-- Witness for C6: an interrupted session holding chunks `[3, 4]`
resumes, captures the chunk `5`, and stop yields `[3, 4, 5]`. -/
theorem resumeInterrupted_preserves_chunks_witness :
    ({ initState with isInterrupted := true, chunks := [3, 4] } :
        RecorderState).isInterrupted = true
    ∧ (∀ c ∈ [5], 0 < c)
    ∧ (stopRecording (run { initState with isInterrupted := true, chunks := [3, 4] }
        (REvent.resumeInt 9000 2 :: [5].map REvent.data))).1 = Except.ok [3, 4, 5] := by
  refine ⟨rfl, by decide, ?_⟩
  have h := resumeInterrupted_preserves_chunks
    { initState with isInterrupted := true, chunks := [3, 4] } 9000 2 [5]
    rfl (by decide)
  exact h.2.2.1

/-- C7: `stop()` from an active session (`Recording`, `Paused` or
`Interrupted`, the recorder not inactive) with at least one buffered chunk
finalizes the chunks into a single artifact and releases the microphone
stream; whereas `stop()` with the recorder no longer active and zero
buffered chunks rejects (`NoAudioCaptured`) and leaves the state
untouched. -/
theorem stopRecording_finalizes_or_rejects :
    (∀ (s : RecorderState) (mr : MRState), s.isRecording = true →
        s.mediaRecorder = some mr → mr ≠ MRState.inactive → s.chunks ≠ [] →
        (stopRecording s).1 = Except.ok s.chunks
        ∧ (stopRecording s).2.audioBlob = some s.chunks
        ∧ (stopRecording s).2.streamActive = false
        ∧ (stopRecording s).2.isRecording = false
        ∧ (stopRecording s).2.isPaused = false
        ∧ (stopRecording s).2.timerActive = false)
    ∧ (∀ s : RecorderState, (s.mediaRecorder = none ∨ s.isRecording = false) →
        s.chunks = [] →
        (stopRecording s).1 = Except.error RecErr.notRecording
        ∧ (stopRecording s).2 = s) := by
  constructor
  · intro s mr hrec hmr hact _
    rw [stopRecording]
    simp only [hmr, hrec, Option.isSome_some, Bool.not_true, Bool.or_false, Bool.false_or,
      Bool.not_false, if_false]
    have hne : s.mediaRecorder ≠ some MRState.inactive := by
      rw [hmr]; intro hEq; exact hact (Option.some.injEq .. ▸ hEq)
    simp [hne, hact]
  · intro s hno hchunks
    have hcond : (!s.mediaRecorder.isSome || !s.isRecording) = true := by
      cases hno with
      | inl h => simp [h]
      | inr h => simp [h]
    rw [stopRecording, if_pos hcond, if_neg (by simp [hchunks])]
    exact ⟨rfl, rfl⟩

/-- Witness for C7: stop after capturing one chunk finalizes it; stop on a
failed-start interrupted state with no recorder and no chunks rejects. -/
theorem stopRecording_finalizes_or_rejects_witness :
    ((run initState [REvent.start 0 7, REvent.data 3]).isRecording = true
      ∧ (stopRecording (run initState [REvent.start 0 7, REvent.data 3])).1
          = Except.ok [3]
      ∧ (stopRecording (run initState [REvent.start 0 7, REvent.data 3])).2.streamActive
          = false)
    ∧ (({ initState with isInterrupted := true } : RecorderState).mediaRecorder = none
      ∧ (stopRecording { initState with isInterrupted := true }).1
          = Except.error RecErr.notRecording) := by
  constructor
  · have h := stopRecording_finalizes_or_rejects.1
      (run initState [REvent.start 0 7, REvent.data 3]) MRState.recording
      rfl rfl (by decide) (by decide)
    exact ⟨rfl, h.1, h.2.2.1⟩
  · have h := stopRecording_finalizes_or_rejects.2
      { initState with isInterrupted := true } (Or.inl rfl) rfl
    exact ⟨rfl, h.1⟩
/-! ## `generateMinutes` orchestration (`app/page.tsx`, v4.13.0 revision)

Each external call's outcome is an input (`Except` value); the model
records, in order, which service calls the run performed, the error state
and whether the audio-backup download dialog was offered. -/

/-- The external calls `generateMinutes` can make. -/
inductive GenCall
  | uploadAudio
  | uploadFile (i : Nat)
  | generateFetch
deriving DecidableEq, Repr

/-- The `/api/generate` response: `ok` flag, the error payload used when
`!response.ok`, and the streamed body on success. -/
structure FetchResp where
  respOk : Bool
  errMsg : String
  body : String
deriving DecidableEq, Repr

/-- Observable outcome of one `generateMinutes` run. -/
structure GenOutcome where
  calls : List GenCall
  error : Option String
  backupOffered : Bool
  minutesOut : Option String
  caught : Bool
deriving DecidableEq, Repr

/-- The catch block: `setError(message)`, back to idle, and — when
`recorder.audioBlob` is in memory — the backup-download confirm dialog. -/
def catchOutcome (cs : List GenCall) (msg : String) (blobInMemory : Bool) : GenOutcome :=
  { calls := cs
    error := some msg
    backupOffered := blobInMemory
    minutesOut := none
    caught := true }

/-- The supplementary-file upload loop: `uploadToGemini` per file, in
order, stopping at the first thrown failure.  Returns the calls attempted
and the error, if any. -/
def uploadDocsRun (i : Nat) : List (Except String Nat) → List GenCall × Option String
  | [] => ([], none)
  | Except.ok _ :: rest =>
    let r := uploadDocsRun (i + 1) rest
    (GenCall.uploadFile i :: r.1, r.2)
  | Except.error m :: _ => ([GenCall.uploadFile i], some m)

/-- The generation call of `generateMinutes`: POST `/api/generate` (a
network error is a thrown exception), throw `data.error` on `!response.ok`,
otherwise stream the body into the minutes state. -/
def genFetchStage (audioCalls docsCalls : List GenCall)
    (fetchRes : Except String FetchResp) (blobInMemory : Bool) : GenOutcome :=
  match fetchRes with
  | Except.error m =>
    catchOutcome (audioCalls ++ docsCalls ++ [GenCall.generateFetch]) m blobInMemory
  | Except.ok resp =>
    if resp.respOk then
      { calls := audioCalls ++ docsCalls ++ [GenCall.generateFetch]
        error := none
        backupOffered := false
        minutesOut := some resp.body
        caught := false }
    else
      catchOutcome (audioCalls ++ docsCalls ++ [GenCall.generateFetch])
        resp.errMsg blobInMemory

/-- `generateMinutes` after the audio-upload step: upload each
supplementary file, check that some input exists (an early validation
return, not a thrown error), then run the generation call; any thrown
failure lands in the catch block. -/
def generateMinutesDocs (hasAudio hasTranscript : Bool) (audioCalls : List GenCall)
    (docUpls : List (Except String Nat)) (fetchRes : Except String FetchResp)
    (blobInMemory : Bool) : GenOutcome :=
  let docs := uploadDocsRun 0 docUpls
  match docs.2 with
  | some m => catchOutcome (audioCalls ++ docs.1) m blobInMemory
  | none =>
    if !hasAudio && !hasTranscript && docUpls.isEmpty then
      { calls := audioCalls ++ docs.1
        error := some "録音データ、文字起こしテキスト、またはファイルが必要です"
        backupOffered := false
        minutesOut := none
        caught := false }
    else
      genFetchStage audioCalls docs.1 fetchRes blobInMemory

/-- `generateMinutes(audioBlob?)`: first the audio upload (when a blob was
passed), then the document/fetch/stream stages of `generateMinutesDocs`. -/
def generateMinutes (hasAudio : Bool) (audioUpl : Except String Nat)
    (docUpls : List (Except String Nat)) (hasTranscript : Bool)
    (fetchRes : Except String FetchResp) (blobInMemory : Bool) : GenOutcome :=
  if hasAudio then
    match audioUpl with
    | Except.error m => catchOutcome [GenCall.uploadAudio] m blobInMemory
    | Except.ok _ =>
      generateMinutesDocs true hasTranscript [GenCall.uploadAudio] docUpls
        fetchRes blobInMemory
  else
    generateMinutesDocs false hasTranscript [] docUpls fetchRes blobInMemory

/-- The full call sequence of an entirely successful run. -/
def fullCalls (hasAudio : Bool) (docCount : Nat) : List GenCall :=
  (if hasAudio then [GenCall.uploadAudio] else [])
    ++ (List.range docCount).map GenCall.uploadFile ++ [GenCall.generateFetch]

lemma uploadFile_injective : Function.Injective GenCall.uploadFile := by
  intro a b h
  injection h

lemma uploadDocsRun_spec (l : List (Except String Nat)) (i : Nat) :
    ∃ k, k ≤ l.length
      ∧ (uploadDocsRun i l).1 = (List.range' i k).map GenCall.uploadFile
      ∧ ((uploadDocsRun i l).2 = none → k = l.length) := by
  induction l generalizing i with
  | nil => exact ⟨0, Nat.le_refl 0, rfl, fun _ => rfl⟩
  | cons x rest ih =>
    cases x with
    | ok v =>
      obtain ⟨k, hk, hcalls, hnone⟩ := ih (i + 1)
      refine ⟨k + 1, Nat.succ_le_succ hk, ?_, ?_⟩
      · show GenCall.uploadFile i :: (uploadDocsRun (i + 1) rest).1 = _
        rw [hcalls]
        rfl
      · intro h2
        show k + 1 = rest.length + 1
        rw [hnone h2]
    | error m =>
      refine ⟨1, Nat.succ_le_succ (Nat.zero_le _), rfl, fun h => ?_⟩
      exact Option.noConfusion h

lemma genCalls_nodup (b : Bool) (i k : Nat) :
    ((if b then [GenCall.uploadAudio] else [])
        ++ (List.range' i k).map GenCall.uploadFile).Nodup
    ∧ ((if b then [GenCall.uploadAudio] else [])
        ++ ((List.range' i k).map GenCall.uploadFile ++ [GenCall.generateFetch])).Nodup := by
  have hmap : ((List.range' i k).map GenCall.uploadFile).Nodup :=
    (List.nodup_range' i k).map uploadFile_injective
  have hfetch : ((List.range' i k).map GenCall.uploadFile
      ++ [GenCall.generateFetch]).Nodup := by
    refine hmap.append (List.nodup_singleton _) ?_
    intro c hc hc2
    simp only [List.mem_map] at hc
    simp only [List.mem_singleton] at hc2
    obtain ⟨j, _, hj⟩ := hc
    rw [hc2] at hj
    exact GenCall.noConfusion hj
  cases b with
  | false =>
    simpa using ⟨hmap, hfetch⟩
  | true =>
    constructor
    · simp only [if_true, List.singleton_append, List.nodup_cons]
      refine ⟨?_, hmap⟩
      intro hmem
      simp only [List.mem_map] at hmem
      obtain ⟨j, _, hj⟩ := hmem
      exact GenCall.noConfusion hj
    · simp only [if_true, List.singleton_append, List.nodup_cons]
      refine ⟨?_, hfetch⟩
      intro hmem
      simp only [List.mem_append, List.mem_map, List.mem_singleton] at hmem
      cases hmem with
      | inl h => obtain ⟨j, _, hj⟩ := h; exact GenCall.noConfusion hj
      | inr h => exact GenCall.noConfusion h

lemma range'_split (k n : Nat) (hk : k ≤ n) :
    List.range' 0 n = List.range' 0 k ++ List.range' k (n - k) := by
  have h := List.range'_append 0 k (n - k) 1
  simp only [Nat.one_mul, Nat.zero_add] at h
  have hn : n = n - k + k := by omega
  conv_lhs => rw [hn]
  exact h.symm

lemma genFetchStage_spec (audioCalls docsCalls : List GenCall)
    (fetchRes : Except String FetchResp) (blobInMemory : Bool)
    (hcaught : (genFetchStage audioCalls docsCalls fetchRes blobInMemory).caught = true) :
    (genFetchStage audioCalls docsCalls fetchRes blobInMemory).error.isSome = true
    ∧ (genFetchStage audioCalls docsCalls fetchRes blobInMemory).minutesOut = none
    ∧ (genFetchStage audioCalls docsCalls fetchRes blobInMemory).backupOffered = blobInMemory
    ∧ (genFetchStage audioCalls docsCalls fetchRes blobInMemory).calls
        = audioCalls ++ docsCalls ++ [GenCall.generateFetch] := by
  cases fetchRes with
  | error m => exact ⟨rfl, rfl, rfl, rfl⟩
  | ok resp =>
    have hred : genFetchStage audioCalls docsCalls (Except.ok resp) blobInMemory
        = if resp.respOk then
            { calls := audioCalls ++ docsCalls ++ [GenCall.generateFetch]
              error := none
              backupOffered := false
              minutesOut := some resp.body
              caught := false }
          else
            catchOutcome (audioCalls ++ docsCalls ++ [GenCall.generateFetch])
              resp.errMsg blobInMemory := rfl
    rw [hred] at hcaught ⊢
    cases hok : resp.respOk with
    | true =>
      rw [if_pos hok] at hcaught
      exact Bool.noConfusion hcaught
    | false =>
      have hok2 : ¬(resp.respOk = true) := by rw [hok]; simp
      rw [if_neg hok2] at hcaught
      simp only [Bool.false_eq_true, if_false]
      exact ⟨rfl, rfl, rfl, rfl⟩

lemma generateMinutesDocs_spec (hasAudio hasTranscript : Bool)
    (docUpls : List (Except String Nat)) (fetchRes : Except String FetchResp)
    (blobInMemory : Bool)
    (hcaught : (generateMinutesDocs hasAudio hasTranscript
        (if hasAudio then [GenCall.uploadAudio] else []) docUpls fetchRes
        blobInMemory).caught = true) :
    (generateMinutesDocs hasAudio hasTranscript
        (if hasAudio then [GenCall.uploadAudio] else []) docUpls fetchRes
        blobInMemory).error.isSome = true
    ∧ (generateMinutesDocs hasAudio hasTranscript
        (if hasAudio then [GenCall.uploadAudio] else []) docUpls fetchRes
        blobInMemory).minutesOut = none
    ∧ (generateMinutesDocs hasAudio hasTranscript
        (if hasAudio then [GenCall.uploadAudio] else []) docUpls fetchRes
        blobInMemory).backupOffered = blobInMemory
    ∧ (generateMinutesDocs hasAudio hasTranscript
        (if hasAudio then [GenCall.uploadAudio] else []) docUpls fetchRes
        blobInMemory).calls.Nodup
    ∧ ∃ rest, fullCalls hasAudio docUpls.length
        = (generateMinutesDocs hasAudio hasTranscript
            (if hasAudio then [GenCall.uploadAudio] else []) docUpls fetchRes
            blobInMemory).calls ++ rest := by
  obtain ⟨k, hk, hcalls, hnone⟩ := uploadDocsRun_spec docUpls 0
  unfold generateMinutesDocs at hcaught ⊢
  cases hdocs : (uploadDocsRun 0 docUpls).2 with
  | some m =>
    simp only [hdocs]
    refine ⟨rfl, rfl, rfl, ?_, ?_⟩
    · show ((if hasAudio then [GenCall.uploadAudio] else [])
          ++ (uploadDocsRun 0 docUpls).1).Nodup
      rw [hcalls]
      exact (genCalls_nodup hasAudio 0 k).1
    · refine ⟨(List.range' k (docUpls.length - k)).map GenCall.uploadFile
        ++ [GenCall.generateFetch], ?_⟩
      show fullCalls hasAudio docUpls.length
        = ((if hasAudio then [GenCall.uploadAudio] else [])
            ++ (uploadDocsRun 0 docUpls).1) ++ _
      rw [hcalls, fullCalls, List.range_eq_range', range'_split k _ hk, List.map_append]
      simp [List.append_assoc]
  | none =>
    simp only [hdocs] at hcaught ⊢
    cases hni : (!hasAudio && !hasTranscript && docUpls.isEmpty) with
    | true =>
      rw [if_pos hni] at hcaught
      exact Bool.noConfusion hcaught
    | false =>
      have hni2 : ¬((!hasAudio && !hasTranscript && docUpls.isEmpty) = true) := by
        rw [hni]; simp
      rw [if_neg hni2] at hcaught
      simp only [Bool.false_eq_true, if_false]
      have hcallsFull : (if hasAudio then [GenCall.uploadAudio] else [])
          ++ (uploadDocsRun 0 docUpls).1 ++ [GenCall.generateFetch]
          = fullCalls hasAudio docUpls.length := by
        rw [hcalls, hnone hdocs, fullCalls, List.range_eq_range']
      have hnodup : ((if hasAudio then [GenCall.uploadAudio] else [])
          ++ (uploadDocsRun 0 docUpls).1 ++ [GenCall.generateFetch]).Nodup := by
        rw [hcalls, hnone hdocs, List.append_assoc]
        exact (genCalls_nodup hasAudio 0 docUpls.length).2
      obtain ⟨h1, h2, h3, h4⟩ := genFetchStage_spec _ _ fetchRes _ hcaught
      refine ⟨h1, h2, h3, ?_, ⟨[], ?_⟩⟩
      · rw [h4]
        exact hnodup
      · rw [List.append_nil, h4, hcallsFull]

/-- C4: whenever the upload/minutes-generation sequence fails — network
error, non-OK response or thrown exception — `generateMinutes` lands in
the catch block: it surfaces the error, produces no minutes, offers the
audio blob as a downloadable backup exactly when one is in memory, makes
no call twice (no automatic retry) and makes no call beyond the failing
one (its calls are an initial portion of the successful sequence). -/
theorem generateMinutes_failure_aborts_offers_backup :
    ∀ (hasAudio : Bool) (audioUpl : Except String Nat)
      (docUpls : List (Except String Nat)) (hasTranscript : Bool)
      (fetchRes : Except String FetchResp) (blobInMemory : Bool),
      (generateMinutes hasAudio audioUpl docUpls hasTranscript fetchRes
          blobInMemory).caught = true →
      (generateMinutes hasAudio audioUpl docUpls hasTranscript fetchRes
          blobInMemory).error.isSome = true
      ∧ (generateMinutes hasAudio audioUpl docUpls hasTranscript fetchRes
          blobInMemory).minutesOut = none
      ∧ (generateMinutes hasAudio audioUpl docUpls hasTranscript fetchRes
          blobInMemory).backupOffered = blobInMemory
      ∧ (generateMinutes hasAudio audioUpl docUpls hasTranscript fetchRes
          blobInMemory).calls.Nodup
      ∧ ∃ rest, fullCalls hasAudio docUpls.length
          = (generateMinutes hasAudio audioUpl docUpls hasTranscript fetchRes
              blobInMemory).calls ++ rest := by
  intro hasAudio audioUpl docUpls hasTranscript fetchRes blobInMemory hcaught
  cases hasAudio with
  | false =>
    exact generateMinutesDocs_spec false hasTranscript docUpls fetchRes blobInMemory hcaught
  | true =>
    cases audioUpl with
    | ok v =>
      exact generateMinutesDocs_spec true hasTranscript docUpls fetchRes blobInMemory hcaught
    | error m =>
      refine ⟨rfl, rfl, rfl, List.nodup_singleton _,
        ⟨(List.range docUpls.length).map GenCall.uploadFile ++ [GenCall.generateFetch], ?_⟩⟩
      show fullCalls true docUpls.length = [GenCall.uploadAudio] ++ _
      rw [fullCalls]
      simp [List.append_assoc]

/-- Witness for C4: the audio upload throws a network error while the
blob is in memory — the run surfaces the error, offers the backup, and
stops after the single attempted call. -/
theorem generateMinutes_failure_witness :
    (generateMinutes true (Except.error "network") [Except.ok 1] true
        (Except.ok ⟨true, "", "minutes"⟩) true).caught = true
    ∧ (generateMinutes true (Except.error "network") [Except.ok 1] true
        (Except.ok ⟨true, "", "minutes"⟩) true).backupOffered = true
    ∧ (generateMinutes true (Except.error "network") [Except.ok 1] true
        (Except.ok ⟨true, "", "minutes"⟩) true).calls.Nodup := by
  have h := generateMinutes_failure_aborts_offers_backup true (Except.error "network")
    [Except.ok 1] true (Except.ok ⟨true, "", "minutes"⟩) true (by decide)
  exact ⟨by decide, h.2.2.1, h.2.2.2.1⟩

/-! ## `waitForFileActive` (`src/lib/gemini.ts`)

`checkFile` polls `fileManager.getFile` while the file is `PROCESSING`,
sleeping 2000 ms between polls, bounded by `MAX_WAIT = 120000` ms; on
timeout it warns and breaks; after the loop it throws only when the last
observed state is `FAILED`.  The poll sequence is the input
`states : Nat → GFileState` (the state seen by the n-th `getFile`). -/

/-- The Gemini File API states. -/
inductive GFileState
  | processing
  | active
  | failed
  | stateUnspecified
deriving DecidableEq, Repr

/-- Result of the polling loop: the last observed file state, whether the
2-minute bound expired, and the elapsed milliseconds at exit. -/
structure WaitResult where
  finalState : GFileState
  timedOut : Bool
  elapsedMs : Nat
deriving DecidableEq, Repr

/-- The `while (file.state === FileState.PROCESSING)` loop of `checkFile`:
on each round, if over `MAX_WAIT` warn and break, else sleep 2000 ms and
poll again. -/
def checkFileLoop (states : Nat → GFileState) (i elapsedMs : Nat) : WaitResult :=
  if states i = GFileState.processing then
    if 120000 < elapsedMs then
      { finalState := GFileState.processing, timedOut := true, elapsedMs := elapsedMs }
    else
      checkFileLoop states (i + 1) (elapsedMs + 2000)
  else
    { finalState := states i, timedOut := false, elapsedMs := elapsedMs }
termination_by 120001 - elapsedMs
decreasing_by omega

/-- `checkFile(name)`: first `getFile`, then the bounded polling loop. -/
def checkFile (states : Nat → GFileState) : WaitResult :=
  checkFileLoop states 0 0

/-- Whether `checkFile` throws: only when the last observed state is
`FAILED`. -/
def checkFileThrows (states : Nat → GFileState) : Bool :=
  decide ((checkFile states).finalState = GFileState.failed)

/-- `waitForFileActive(fileNames)`: `Promise.all` over the files — it
rejects exactly when some file's `checkFile` throws. -/
def waitForFileActive (fs : List (Nat → GFileState)) : Bool :=
  fs.any fun st => checkFileThrows st

lemma checkFileLoop_spec (fuel : Nat) : ∀ (states : Nat → GFileState) (i e : Nat),
    120001 - e ≤ fuel →
    ((checkFileLoop states i e).elapsedMs ≤ max e 122000
    ∧ ((checkFileLoop states i e).timedOut = true →
        (checkFileLoop states i e).finalState = GFileState.processing)
    ∧ ((checkFileLoop states i e).timedOut = false →
        (checkFileLoop states i e).finalState ≠ GFileState.processing)) := by
  induction fuel with
  | zero =>
    intro states i e hf
    rw [checkFileLoop]
    split
    · split
      · exact ⟨Nat.le_max_left _ _, fun _ => rfl, fun hf2 => Bool.noConfusion hf2⟩
      · omega
    · refine ⟨Nat.le_max_left _ _, fun ht => Bool.noConfusion ht, fun _ => ?_⟩
      simp_all
  | succ n ih =>
    intro states i e hf
    rw [checkFileLoop]
    split
    · split
      · exact ⟨Nat.le_max_left _ _, fun _ => rfl, fun hf2 => Bool.noConfusion hf2⟩
      · rename_i hp hto
        have hrec := ih states (i + 1) (e + 2000) (by omega)
        refine ⟨?_, hrec.2.1, hrec.2.2⟩
        have h1 := hrec.1
        have h2 : e + 2000 ≤ 122000 := by omega
        omega
    · refine ⟨Nat.le_max_left _ _, fun ht => Bool.noConfusion ht, fun _ => ?_⟩
      simp_all

/-- C8: the wait-for-ready step polls each file until it leaves
`PROCESSING`, bounded by the 120-second budget (its exit time never
exceeds `MAX_WAIT` plus one 2-second poll interval); when the bound
expires with the file still `PROCESSING` it returns normally without
throwing (only a warning), and it throws exactly when a file reaches
`FAILED`. -/
theorem waitForFileActive_bounded_timeout_proceeds :
    (∀ states : Nat → GFileState, (checkFile states).elapsedMs ≤ 122000)
    ∧ (∀ states : Nat → GFileState, (checkFile states).timedOut = true →
        (checkFile states).finalState = GFileState.processing
        ∧ checkFileThrows states = false)
    ∧ (∀ states : Nat → GFileState, (checkFile states).timedOut = false →
        (checkFile states).finalState ≠ GFileState.processing)
    ∧ (∀ states : Nat → GFileState,
        checkFileThrows states = true ↔ (checkFile states).finalState = GFileState.failed)
    ∧ (∀ fs : List (Nat → GFileState),
        waitForFileActive fs = true
          ↔ ∃ st ∈ fs, (checkFile st).finalState = GFileState.failed) := by
  have hspec := fun states => checkFileLoop_spec 120001 states 0 0 (by omega)
  refine ⟨fun states => by simpa using (hspec states).1, ?_,
    fun states => (hspec states).2.2, ?_, ?_⟩
  · intro states hto
    have hp := (hspec states).2.1 hto
    refine ⟨hp, ?_⟩
    rw [checkFileThrows]
    show decide ((checkFile states).finalState = GFileState.failed) = false
    rw [show (checkFile states).finalState = GFileState.processing from hp]
    rfl
  · intro states
    rw [checkFileThrows]
    exact decide_eq_true_iff
  · intro fs
    rw [waitForFileActive, List.any_eq_true]
    constructor
    · rintro ⟨st, hmem, hthrow⟩
      exact ⟨st, hmem, decide_eq_true_iff.1 hthrow⟩
    · rintro ⟨st, hmem, hfail⟩
      exact ⟨st, hmem, decide_eq_true_iff.2 hfail⟩

/-- Witness for C8: a file stuck in `PROCESSING` forever times out after
122 seconds of polling, still counts as `PROCESSING`, and does not throw;
a file that turns `ACTIVE` on the third poll exits without timeout. -/
theorem waitForFileActive_bounded_timeout_witness :
    (checkFile (fun _ => GFileState.processing)).timedOut = true
    ∧ (checkFile (fun _ => GFileState.processing)).finalState = GFileState.processing
    ∧ checkFileThrows (fun _ => GFileState.processing) = false
    ∧ (checkFile (fun n => if n < 2 then GFileState.processing
        else GFileState.active)).timedOut = false
    ∧ (waitForFileActive [fun _ => GFileState.failed] = true
        ↔ ∃ st ∈ [fun _ => GFileState.failed],
            (checkFile st).finalState = GFileState.failed) := by
  have hto : (checkFile (fun _ => GFileState.processing)).timedOut = true := by
    simp [checkFile, checkFileLoop]
  have h := waitForFileActive_bounded_timeout_proceeds.2.1 (fun _ => GFileState.processing) hto
  refine ⟨hto, h.1, h.2, ?_, waitForFileActive_bounded_timeout_proceeds.2.2.2.2 _⟩
  simp [checkFile, checkFileLoop]

/-! ## `handleSave` (`app/page.tsx`, v4.13.0 revision)

Saving to Drive: find/create the date folder, render the minutes preview
to PDF and upload it (or fall back to a text upload when the preview
element is missing), upload the recorded audio when a blob exists, upload
any supplementary audio files; on success `isSaved := true`, on any
thrown failure only `error` is set; `finally` clears `isSaving`. -/

/-- Outcomes of the external calls `handleSave` makes, in source order. -/
structure SaveEnv where
  findFolder : Except String (Option Nat)
  createFolder : Except String Nat
  previewFound : Bool
  pdfRender : Except String Nat
  uploadPdf : Except String Unit
  uploadDoc : Except String Unit
  uploadAudio : Except String Unit
  uploadExtraAudio : List (Except String Unit)

/-- The slice of `Home` state `handleSave` touches, plus the recorder's
blob (read for the audio upload and the download hint). -/
structure SaveState where
  minutes : String
  error : Option String
  isSaving : Bool
  isSaved : Bool
  audioBlob : Option (List Nat)
deriving DecidableEq, Repr

/-- The uploaded-audio-files loop (step 6): sequential uploads, the first
thrown failure aborts the rest. -/
def extraAudioLoop : List (Except String Unit) → Except String Unit
  | [] => Except.ok ()
  | r :: rest => do
    let _ ← r
    extraAudioLoop rest

/-- The body of `handleSave`'s `try` block, threading the first thrown
error. -/
def handleSaveSteps (env : SaveEnv) (s : SaveState) : Except String Unit := do
  let folder ← env.findFolder
  match folder with
  | some _ => pure ()
  | none =>
    let _ ← env.createFolder
    pure ()
  if env.previewFound then
    let _ ← env.pdfRender
    let _ ← env.uploadPdf
  else
    let _ ← env.uploadDoc
  match s.audioBlob with
  | some _ =>
    let _ ← env.uploadAudio
    pure ()
  | none => pure ()
  extraAudioLoop env.uploadExtraAudio

/-- `handleSave`: bail out without a token; otherwise run the try block —
success sets `isSaved`, the catch sets only `error`, and `finally` always
clears `isSaving`.  The minutes text and the audio blob are never
written. -/
def handleSave (hasToken : Bool) (env : SaveEnv) (s : SaveState) : SaveState :=
  if !hasToken then s
  else
    match handleSaveSteps env s with
    | Except.ok _ => { s with error := none, isSaved := true, isSaving := false }
    | Except.error m => { s with error := some m, isSaving := false }

/-- C9: `handleSave` never touches the generated minutes text or the
captured blob; when saving fails, the error is surfaced, `isSaving` is
released (so the user can retry the save or download manually without
re-generation) and `isSaved` stays as it was. -/
theorem handleSave_failure_keeps_minutes :
    (∀ (hasToken : Bool) (env : SaveEnv) (s : SaveState),
        (handleSave hasToken env s).minutes = s.minutes
        ∧ (handleSave hasToken env s).audioBlob = s.audioBlob)
    ∧ (∀ (env : SaveEnv) (s : SaveState) (m : String),
        handleSaveSteps env s = Except.error m →
        (handleSave true env s).error = some m
        ∧ (handleSave true env s).isSaving = false
        ∧ (handleSave true env s).isSaved = s.isSaved
        ∧ (handleSave true env s).minutes = s.minutes
        ∧ (handleSave true env s).audioBlob = s.audioBlob) := by
  constructor
  · intro hasToken env s
    cases hasToken with
    | false => exact ⟨rfl, rfl⟩
    | true =>
      rw [handleSave]
      cases h : handleSaveSteps env s with
      | ok u => simp
      | error m => simp
  · intro env s m hfail
    rw [handleSave]
    simp only [Bool.not_true, Bool.false_eq_true, if_false, hfail]
    exact ⟨trivial, trivial, trivial, trivial, trivial⟩

/-- Witness for C9 at a failing folder lookup: the minutes string and the
blob survive, the error message is surfaced and `isSaving` is cleared. -/
theorem handleSave_failure_keeps_minutes_witness :
    handleSaveSteps
        ⟨Except.error "offline", Except.ok 4, true, Except.ok 9, Except.ok (),
          Except.ok (), Except.ok (), []⟩
        ⟨"# minutes", none, false, false, some [3]⟩ = Except.error "offline"
    ∧ (handleSave true
        ⟨Except.error "offline", Except.ok 4, true, Except.ok 9, Except.ok (),
          Except.ok (), Except.ok (), []⟩
        ⟨"# minutes", none, false, false, some [3]⟩).minutes = "# minutes"
    ∧ (handleSave true
        ⟨Except.error "offline", Except.ok 4, true, Except.ok 9, Except.ok (),
          Except.ok (), Except.ok (), []⟩
        ⟨"# minutes", none, false, false, some [3]⟩).error = some "offline" := by
  have h := handleSave_failure_keeps_minutes.2
    ⟨Except.error "offline", Except.ok 4, true, Except.ok 9, Except.ok (),
      Except.ok (), Except.ok (), []⟩
    ⟨"# minutes", none, false, false, some [3]⟩ "offline" rfl
  exact ⟨rfl, h.2.2.2.1, h.1⟩

end QuickMinutes
